import Mathlib

/-!
# Verification of the simple-screenshot capture/edit core

Shallow embedding of the TypeScript sources of the `simple-screenshot`
repository.  Numbers that are JS `number` values used for coordinates and
sizes are modelled as rationals (`ℚ`); timestamps (`Date.now()`
milliseconds) are modelled as integers (`ℤ`); raster pixel coordinates and
8-bit channels are modelled as naturals (`ℕ`).  Fallible operations return
`Except` values mirroring the thrown `Error`s / `{success:false}` results
of the source.
-/

/-- Source `Rectangle` from `src/shared/types/screenshot` — `{x, y, width, height}`,
JS numbers modelled as rationals. -/
structure RectQ where
  x : ℚ
  y : ℚ
  width : ℚ
  height : ℚ
  deriving DecidableEq, Repr

/-- A `{width, height}` size value (e.g. `thumbnail.getSize()`,
`thumbnailSize` requests). -/
structure SizeQ where
  width : ℚ
  height : ℚ
  deriving DecidableEq, Repr

/-- JS `Math.floor`. -/
def jsFloor (q : ℚ) : ℤ := ⌊q⌋

/-- JS `Math.round`: round half-up, i.e. `Math.round(q) = ⌊q + 1/2⌋`. -/
def jsRound (q : ℚ) : ℤ := ⌊q + 1 / 2⌋

/-- The `Display` records held by `DisplayManager`
(`src/main/screenshot/capture.ts`, `refreshDisplays`): only the fields the
capture pipeline reads (`id`, `bounds`, `scaleFactor`). -/
structure DisplayL where
  id : String
  bounds : RectQ
  scaleFactor : ℚ
  deriving DecidableEq, Repr

namespace CoordinateSystem

/-- Source `CoordinateSystem.toPhysicalPixels` (unnamed/part_003, lines 18-25):
every component is multiplied by `scaleFactor`, with no rounding. -/
def toPhysicalPixels (logicalRect : RectQ) (scaleFactor : ℚ) : RectQ :=
  { x := logicalRect.x * scaleFactor
    y := logicalRect.y * scaleFactor
    width := logicalRect.width * scaleFactor
    height := logicalRect.height * scaleFactor }

/-- Source `CoordinateSystem.toLogicalPixels` (unnamed/part_003, lines 30-37):
every component is divided by `scaleFactor`. -/
def toLogicalPixels (physicalRect : RectQ) (scaleFactor : ℚ) : RectQ :=
  { x := physicalRect.x / scaleFactor
    y := physicalRect.y / scaleFactor
    width := physicalRect.width / scaleFactor
    height := physicalRect.height / scaleFactor }

/-- Modelled from the spec (§4.1), for comparison with the source's
`toPhysicalPixels`: `x,y = floor(rect.x*scale, rect.y*scale)`;
`width,height = round(rect.width*scale, rect.height*scale)`. -/
def toPhysicalSpec (rect : RectQ) (scale : ℚ) : RectQ :=
  { x := (jsFloor (rect.x * scale) : ℤ)
    y := (jsFloor (rect.y * scale) : ℤ)
    width := (jsRound (rect.width * scale) : ℤ)
    height := (jsRound (rect.height * scale) : ℤ) }

end CoordinateSystem

/-! ## Renderer-side selection overlay (drag state machine)

`ScreenshotOverlay` from the inline overlay script
(unnamed/part_004, lines 540-736; same logic in unnamed/part_000,
lines 78-264).  Mouse coordinates are surface-local logical pixels
(`event.clientX/Y`). -/

/-- Mutable fields of the renderer `ScreenshotOverlay` class that the
selection logic reads and writes. -/
structure OverlayUIState where
  isSelecting : Bool
  startX : ℚ
  startY : ℚ
  currentX : ℚ
  currentY : ℚ
  deriving DecidableEq, Repr

namespace ScreenshotOverlay

/-- Source `getSelectionBounds` (part_004 lines 650-657): rectangle spanned by the
anchor (`startX/Y`) and the current point. -/
def getSelectionBounds (s : OverlayUIState) : RectQ :=
  { x := min s.startX s.currentX
    y := min s.startY s.currentY
    width := |s.currentX - s.startX|
    height := |s.currentY - s.startY| }

/-- Source `onMouseDown` (part_004 lines 586-597): start a drag, anchoring at the
event position. -/
def onMouseDown (s : OverlayUIState) (cx cy : ℚ) : OverlayUIState :=
  { s with isSelecting := true, startX := cx, startY := cy,
           currentX := cx, currentY := cy }

/-- Source `onMouseMove` (part_004 lines 599-607): track the current point. -/
def onMouseMove (s : OverlayUIState) (cx cy : ℚ) : OverlayUIState :=
  { s with currentX := cx, currentY := cy }

/-- Source `onMouseUp` (part_004 lines 609-630): end the drag; the selection is
delivered (ipc `overlay:selection-complete`, modelled as `some bounds`)
only when `bounds.width > 5 && bounds.height > 5`; otherwise nothing is
sent and the overlay is redrawn idle. -/
def onMouseUp (s : OverlayUIState) : OverlayUIState × Option RectQ :=
  if !s.isSelecting then (s, none)
  else
    let s' := { s with isSelecting := false }
    let bounds := getSelectionBounds s'
    if bounds.width > 5 ∧ bounds.height > 5 then (s', some bounds)
    else (s', none)

end ScreenshotOverlay

/-! ## Capture engine (`ScreenshotCapture`, src/main/screenshot/capture.ts)

`desktopCapturer.getSources` is an external Electron API; it is modelled as
an environment oracle mapping the requested thumbnail size to the source
list returned.  Encoded buffers and timestamps are not modelled: no claim
is about the byte content of the PNG/JPEG. -/

/-- A capture source as returned by `getSources` (capture.ts lines 40-46):
the fields the pipeline reads (`id`, `displayId`). -/
structure SourceM where
  id : String
  displayId : String
  deriving DecidableEq, Repr

/-- A source of a full-size enumeration, together with the state of its
thumbnail (`thumbnail.isEmpty()`, `thumbnail.getSize()`). -/
structure FullSourceM where
  id : String
  thumbnailEmpty : Bool
  thumbSize : SizeQ
  deriving DecidableEq, Repr

/-- Environment of one `ScreenshotCapture` call: what the OS/Electron layer
would answer.  `fullScreenSources`/`fullWindowSources` are keyed by the
`thumbnailSize` the code requests. -/
structure CaptureEnv where
  screenSources : List SourceM
  fullScreenSources : SizeQ → List FullSourceM
  windowSources : List SourceM
  fullWindowSources : SizeQ → List FullSourceM

/-- Source `MAX_THUMBNAIL_SIZE` (capture.ts line 14): the fixed
`{width: 1920, height: 1080}` used for every full-size enumeration. -/
def maxThumbnailSize : SizeQ := { width := 1920, height := 1080 }

/-- Source `MIN_CAPTURE_INTERVAL` (capture.ts line 16). -/
def minCaptureInterval : ℤ := 200

/-- Mutable state of `ScreenshotCapture` relevant to the claims:
`lastCaptureTime` (capture.ts line 15).  The source-list cache is not
modelled (no claim is about the cache). -/
structure CaptureState where
  lastCaptureTime : ℤ
  deriving DecidableEq, Repr

/-- The distinct `Error`s thrown / failure results returned across the
capture and manager layers (each comment quotes the source message). -/
inductive CaptureErr
  | tooFrequent         -- 'Too frequent capture requests. Please wait ...'
  | noSources           -- 'No screen sources available. Check display permissions.'
  | displayNotFound     -- `Display ${id} not found. Available displays: ...`
  | noScreenSources     -- 'No screen sources found'
  | fullSourceNotFound  -- 'Failed to get full resolution screenshot for source ...'
  | emptyCapture        -- 'Captured screenshot is empty'
  | invalidBounds       -- 'Invalid bounds: ... Image size: ...'
  | invalidBoundsDim    -- 'Invalid bounds dimensions: ...'
  | windowNotFound      -- 'Window not found'
  | windowCaptureFailed -- 'Failed to capture window'
  | noRegionSelected    -- 'No region selected or selection was cancelled'
  | boundsRequired      -- 'Bounds required for region capture'
  | noDisplayForRegion  -- 'No display found for the specified region'
  | coordConvertFailed  -- 'Failed to convert coordinates to display space'
  | windowIdRequired    -- 'Window ID required for window capture'
  | unsupportedMode     -- `Unsupported screenshot mode: ${mode}`
  | noPrimaryDisplay    -- JS TypeError when the display list is empty
  | alreadyInProgress   -- {success:false, error:'Screenshot already in progress'}
  deriving DecidableEq, Repr

/-- Source `ScreenshotData` (shared types) restricted to the fields the claims
are about; the encoded `buffer` and `timestamp` are omitted. -/
structure ScreenshotDataM where
  width : ℚ
  height : ℚ
  displayId : String
  scaleFactor : ℚ
  deriving DecidableEq, Repr

/-- Source `ScreenshotOptions` restricted to the fields the capture path reads
(`format`/`quality` only select the encoder and never change the pixel
geometry or control flow). -/
structure ScreenshotOptsM where
  displayId : Option String := none
  bounds : Option RectQ := none
  deriving DecidableEq, Repr

namespace ScreenshotCapture

/-- The tail of `captureScreen` shared by both target-resolution branches
(capture.ts lines 91-145): re-enumerate at `MAX_THUMBNAIL_SIZE` and find
the target's full source (lines 92-100); reject an empty thumbnail (lines
102-105); if `bounds` are given, reject them unless they lie fully inside
the frame and are at least 1px in each dimension (lines 111-121), then
crop; otherwise use the whole frame (lines 123-127). -/
def captureScreenRest (st' : CaptureState) (env : CaptureEnv)
    (opts : ScreenshotOptsM) (target : SourceM) :
    CaptureState × Except CaptureErr ScreenshotDataM :=
  match (env.fullScreenSources maxThumbnailSize).find?
      (fun s => s.id == target.id) with
  | none => (st', .error .fullSourceNotFound)
  | some full =>
    if full.thumbnailEmpty then (st', .error .emptyCapture)
    else
      -- `const size = thumbnail.getSize()` is `full.thumbSize`
      match opts.bounds with
      | some b =>
        if b.x < 0 ∨ b.y < 0 ∨ b.x + b.width > full.thumbSize.width ∨
            b.y + b.height > full.thumbSize.height then
          (st', .error .invalidBounds)
        else if b.width < 1 ∨ b.height < 1 then
          (st', .error .invalidBoundsDim)
        else
          (st', .ok { width := b.width, height := b.height,
                      displayId := target.displayId, scaleFactor := 1 })
      | none =>
        (st', .ok { width := full.thumbSize.width, height := full.thumbSize.height,
                    displayId := target.displayId, scaleFactor := 1 })

/-- Source `captureScreen` (capture.ts lines 59-151) as a state transition:
 1. throttle: reject with `tooFrequent` if less than `MIN_CAPTURE_INTERVAL`
    ms elapsed since `lastCaptureTime` (lines 63-65), leaving the state
    untouched; otherwise record `lastCaptureTime := now` (line 67);
 2. resolve the target among the cached screen sources (lines 70-89:
    explicit `displayId`, else the first source whose id starts with
    "screen");
 3. continue with `captureScreenRest`. -/
def captureScreen (st : CaptureState) (now : ℤ) (env : CaptureEnv)
    (opts : ScreenshotOptsM) : CaptureState × Except CaptureErr ScreenshotDataM :=
  if now - st.lastCaptureTime < minCaptureInterval then
    (st, .error .tooFrequent)
  else
    let st' : CaptureState := { lastCaptureTime := now }
    if env.screenSources.isEmpty then (st', .error .noSources)
    else
      match opts.displayId with
      | some d =>
        match env.screenSources.find? (fun s => s.displayId == d) with
        | none => (st', .error .displayNotFound)
        | some target => captureScreenRest st' env opts target
      | none =>
        match env.screenSources.find? (fun s => s.id.startsWith "screen") with
        | none => (st', .error .noScreenSources)
        | some target => captureScreenRest st' env opts target

/-- Source `captureWindow` (capture.ts lines 153-187): no throttle check and no
`lastCaptureTime` update; finds the window source, re-enumerates at
`MAX_THUMBNAIL_SIZE`, and returns the whole window frame. -/
def captureWindow (st : CaptureState) (env : CaptureEnv) (windowId : String) :
    CaptureState × Except CaptureErr ScreenshotDataM :=
  match env.windowSources.find? (fun s => s.id == windowId) with
  | none => (st, .error .windowNotFound)
  | some ws =>
    match (env.fullWindowSources maxThumbnailSize).find?
        (fun s => s.id == windowId) with
    | none => (st, .error .windowCaptureFailed)
    | some fs =>
      (st, .ok { width := fs.thumbSize.width, height := fs.thumbSize.height,
                 displayId := ws.displayId, scaleFactor := 1 })

end ScreenshotCapture

/-! ## Main-process overlay result delivery and `ScreenshotManager`
(src/main/screenshot/index.ts, unnamed/part_004) -/

/-- Result delivery of `OverlayWindow` (unnamed/part_004 lines 416-458):
the bounds received over ipc `overlay:selection-complete` are stored in
`selectionResult` (line 442) and, when the window closes, passed to
`onSelectionComplete` unchanged (lines 425-429); `OverlayWindowManager`
resolves `showSelectionOverlay` with that same value (lines 834-839).  No
translation by the owning display's origin happens anywhere on this path. -/
def overlayDeliveredBounds (selectionResult : Option RectQ) : Option RectQ :=
  selectionResult

/-- Modelled from the spec (§4.3 `SelectionOverlaySession`, "On
`Completed`, the session converts its surface-local logical rectangle to a
global logical rectangle by adding the owning display's logical origin"):
the rectangle the spec says should be returned upward.  This matches the
unused `DisplayManager.normalizeCoordinates` helper
(capture.ts lines 350-364). -/
def completedBoundsSpec (surfaceLocal : RectQ) (display : DisplayL) : RectQ :=
  { surfaceLocal with
    x := surfaceLocal.x + display.bounds.x
    y := surfaceLocal.y + display.bounds.y }

/-- Environment of one `ScreenshotManager` request: the `DisplayManager`
snapshot, the Electron `screen` oracles, the overlay outcome for region
mode, and the capture environment. -/
structure ManagerEnv where
  displays : List DisplayL
  primaryId : String
  nearestId : ℚ → ℚ → String
  selection : Option RectQ
  capture : CaptureEnv

namespace DisplayManager

/-- Source `DisplayManager.getDisplay` (capture.ts lines 306-309). -/
def getDisplay (env : ManagerEnv) (id : String) : Option DisplayL :=
  env.displays.find? (fun d => d.id == id)

/-- Source `DisplayManager.getPrimaryDisplay` (capture.ts lines 311-315):
`getDisplay(primary.id) || getAllDisplays()[0]`; with an empty display
list the JS expression is `undefined`, modelled as `none`. -/
def getPrimaryDisplay (env : ManagerEnv) : Option DisplayL :=
  (getDisplay env env.primaryId).orElse (fun _ => env.displays.head?)

/-- Source `DisplayManager.getDisplayAtPoint` (capture.ts lines 317-321):
`screen.getDisplayNearestPoint` is the `nearestId` oracle. -/
def getDisplayAtPoint (env : ManagerEnv) (x y : ℚ) : Option DisplayL :=
  getDisplay env (env.nearestId x y)

/-- Source `DisplayManager.convertToDisplayCoordinates` (capture.ts lines
366-380): subtract the target display's logical origin. -/
def convertToDisplayCoordinates (env : ManagerEnv) (globalX globalY : ℚ)
    (targetDisplayId : String) : Option (ℚ × ℚ) :=
  match getDisplay env targetDisplayId with
  | none => none
  | some display => some (globalX - display.bounds.x, globalY - display.bounds.y)

end DisplayManager

/-- Source `ScreenshotMode` (shared types). -/
inductive ScreenshotMode
  | fullscreen
  | region
  | window
  deriving DecidableEq, Repr

/-- Mutable state of `ScreenshotManager`: the single-flight flag
(index.ts line 19) plus the wrapped `ScreenshotCapture` state. -/
structure SysState where
  isCapturing : Bool
  cap : CaptureState
  deriving DecidableEq, Repr

namespace ScreenshotManager

/-- Source `screenshotData.scaleFactor = display.scaleFactor` as done by the
manager after each capture (index.ts lines 130, 142, 217). -/
def setScale (s : ℚ) (d : ScreenshotDataM) : ScreenshotDataM :=
  { d with scaleFactor := s }

/-- Source `captureFullscreen` (index.ts lines 116-144): resolve the display
first (explicit id, else primary), then `captureScreen` without bounds,
then stamp the display's scale factor. -/
def captureFullscreen (capSt : CaptureState) (now : ℤ) (env : ManagerEnv)
    (opts : ScreenshotOptsM) : CaptureState × Except CaptureErr ScreenshotDataM :=
  match opts.displayId with
  | some id =>
    match DisplayManager.getDisplay env id with
    | none => (capSt, .error .displayNotFound)
    | some d =>
      let r := ScreenshotCapture.captureScreen capSt now env.capture
        { displayId := some id, bounds := none }
      (r.1, r.2.map (setScale d.scaleFactor))
  | none =>
    match DisplayManager.getPrimaryDisplay env with
    | none => (capSt, .error .noPrimaryDisplay)
    | some p =>
      let r := ScreenshotCapture.captureScreen capSt now env.capture
        { displayId := some p.id, bounds := none }
      (r.1, r.2.map (setScale p.scaleFactor))

/-- Source `captureRegion` (index.ts lines 167-221): resolve the display at the
region's center, convert the (assumed-global) bounds to display-relative
coordinates, scale by the display's scale factor with `Math.round` on all
four components (lines 199-204), and capture with those bounds. -/
def captureRegion (capSt : CaptureState) (now : ℤ) (env : ManagerEnv)
    (opts : ScreenshotOptsM) : CaptureState × Except CaptureErr ScreenshotDataM :=
  match opts.bounds with
  | none => (capSt, .error .boundsRequired)
  | some b =>
    let centerX := b.x + b.width / 2
    let centerY := b.y + b.height / 2
    match DisplayManager.getDisplayAtPoint env centerX centerY with
    | none => (capSt, .error .noDisplayForRegion)
    | some display =>
      match DisplayManager.convertToDisplayCoordinates env b.x b.y display.id with
      | none => (capSt, .error .coordConvertFailed)
      | some db =>
        let s := display.scaleFactor
        let relativeBounds : RectQ :=
          { x := (jsRound (db.1 * s) : ℤ)
            y := (jsRound (db.2 * s) : ℤ)
            width := (jsRound (b.width * s) : ℤ)
            height := (jsRound (b.height * s) : ℤ) }
        let r := ScreenshotCapture.captureScreen capSt now env.capture
          { displayId := some display.id, bounds := some relativeBounds }
        (r.1, r.2.map (setScale display.scaleFactor))

/-- Source `captureRegionWithSelection` (index.ts lines 146-165): wait for the
overlay outcome; a `null` outcome is the cancellation error, otherwise
capture with the delivered bounds. -/
def captureRegionWithSelection (capSt : CaptureState) (now : ℤ)
    (env : ManagerEnv) (opts : ScreenshotOptsM) :
    CaptureState × Except CaptureErr ScreenshotDataM :=
  match overlayDeliveredBounds env.selection with
  | none => (capSt, .error .noRegionSelected)
  | some selectedBounds =>
    captureRegion capSt now env { opts with bounds := some selectedBounds }

/-- Source `takeScreenshot` (index.ts lines 36-114): reject immediately with
`alreadyInProgress` while a capture is in flight, leaving all state
untouched; otherwise set the flag, dispatch on the mode, and — mirroring
the `finally` block (lines 108-113) — clear the flag on every exit path.
In window mode `options.displayId` carries the window id (lines 63-68).
The clipboard/editor hand-off after a successful capture does not touch
the modelled state and is omitted. -/
def takeScreenshot (st : SysState) (mode : ScreenshotMode) (now : ℤ)
    (env : ManagerEnv) (opts : ScreenshotOptsM) :
    SysState × Except CaptureErr ScreenshotDataM :=
  if st.isCapturing then (st, .error .alreadyInProgress)
  else
    let r : CaptureState × Except CaptureErr ScreenshotDataM :=
      match mode with
      | .fullscreen => captureFullscreen st.cap now env opts
      | .region => captureRegionWithSelection st.cap now env opts
      | .window =>
        match opts.displayId with
        | none => (st.cap, .error .windowIdRequired)
        | some windowId => ScreenshotCapture.captureWindow st.cap env.capture windowId
    ({ isCapturing := false, cap := r.1 }, r.2)

end ScreenshotManager

/-! ## Editor history (`EditorManager`, src/main/editor/index.ts) -/

/-- An `EditorAction` (`{tool, data}`): the history logic never inspects
the payload, so actions are modelled by an opaque tag. -/
structure EditorAction where
  tag : ℕ
  deriving DecidableEq, Repr

/-- The `EditorResult` values of the history operations (each comment
quotes the `error` message of the `{success:false}` result). -/
inductive EditorResultE
  | ok                  -- {success: true}
  | errNotInitialized   -- 'Editor not initialized'
  | errApplyFailed      -- message of the exception from ImageProcessor
  | errNothingToUndo    -- 'Nothing to undo'
  | errNothingToRedo    -- 'Nothing to redo'
  deriving DecidableEq, Repr

/-- Mutable fields of `EditorManager` driving undo/redo
(editor/index.ts lines 8-11): `imageProcessor !== null` is the
`initialized` flag; `historyIndex` is a JS number holding integers. -/
structure EditorState where
  initialized : Bool
  editHistory : List EditorAction
  historyIndex : ℤ
  deriving DecidableEq, Repr

namespace EditorManager

/-- Source `initializeEditor` (editor/index.ts lines 43-55), success path:
fresh processor, empty history, cursor `-1`. -/
def initializeEditor : EditorState :=
  { initialized := true, editHistory := [], historyIndex := -1 }

/-- Source `applyAction` (editor/index.ts lines 57-80): fail when the processor
is missing or the pixel operation throws (`procOk = false`, state
untouched); otherwise truncate the redo tail
(`editHistory.slice(0, historyIndex + 1)`) when `historyIndex <
editHistory.length - 1`, append the action, and advance the cursor. -/
def applyAction (st : EditorState) (a : EditorAction) (procOk : Bool) :
    EditorState × EditorResultE :=
  if st.initialized = false then (st, .errNotInitialized)
  else if procOk = false then (st, .errApplyFailed)
  else
    let hist :=
      if st.historyIndex < (st.editHistory.length : ℤ) - 1 then
        st.editHistory.take (st.historyIndex + 1).toNat
      else st.editHistory
    ({ st with editHistory := hist ++ [a], historyIndex := st.historyIndex + 1 },
     .ok)

/-- Source `undo` (editor/index.ts lines 82-98): fail when uninitialized or
`historyIndex < 0`; else decrement the cursor (the canvas rebuild replays
`operations[0..historyIndex]` and does not change the history fields). -/
def undo (st : EditorState) : EditorState × EditorResultE :=
  if st.initialized = false ∨ st.historyIndex < 0 then (st, .errNothingToUndo)
  else ({ st with historyIndex := st.historyIndex - 1 }, .ok)

/-- Source `redo` (editor/index.ts lines 100-116): fail when uninitialized or
`historyIndex >= editHistory.length - 1`; else increment the cursor. -/
def redo (st : EditorState) : EditorState × EditorResultE :=
  if st.initialized = false ∨ st.historyIndex ≥ (st.editHistory.length : ℤ) - 1 then
    (st, .errNothingToRedo)
  else ({ st with historyIndex := st.historyIndex + 1 }, .ok)

/-- One history operation issued over ipc. -/
inductive EditorOp
  | apply (a : EditorAction) (procOk : Bool)
  | undo
  | redo

/-- State reached after one operation. -/
def step (st : EditorState) (op : EditorOp) : EditorState :=
  match op with
  | .apply a procOk => (applyAction st a procOk).1
  | .undo => (undo st).1
  | .redo => (redo st).1

/-- State reached from a fresh editor after a sequence of operations. -/
def run (ops : List EditorOp) : EditorState :=
  ops.foldl step initializeEditor

/-- The cursor invariant of the spec's `EditHistory` data model:
`cursor` stays in `[-1, len-1]`. -/
def cursorInv (st : EditorState) : Prop :=
  -1 ≤ st.historyIndex ∧ st.historyIndex ≤ (st.editHistory.length : ℤ) - 1

instance (st : EditorState) : Decidable (cursorInv st) := by
  unfold cursorInv; infer_instance

end EditorManager

/-! ## Mosaic pixel operation (`ImageProcessor.applyMosaicAction`,
src/main/editor/index.ts, ImageProcessor part, lines 279-306)

The RGBA byte array returned by `getImageData(x, y, width, height)` is
modelled as a pixel map in region-local coordinates:
`data[(y*width + x)*4 + c]` is channel `c` of `d x y`.  `putImageData`
writes the transformed region back to the same rectangle, so applying the
editor action twice with the same bounds composes the region transforms. -/

/-- One RGBA pixel. -/
structure Pixel where
  r : ℕ
  g : ℕ
  b : ℕ
  a : ℕ
  deriving DecidableEq, Repr

/-- A raster region addressed by `(x, y)`. -/
abbrev PixelMap := ℕ → ℕ → Pixel

namespace ImageProcessor

/-- The three assignments `data[index] = red` etc. (lines 297-299): write
the RGB channels of one pixel, leaving alpha untouched. -/
def writeRGB (d : PixelMap) (x y r g b : ℕ) : PixelMap :=
  fun x' y' =>
    if x' = x ∧ y' = y then { r := r, g := g, b := b, a := (d x' y').a }
    else d x' y'

/-- The inner `for (x2 = px; x2 < px + pixelSize && x2 < width; x2++)`
loop (line 295) writing one row of a block; `len` is the number of
iterations. -/
def fillRow (d : PixelMap) (px py r g b : ℕ) (len : ℕ) : PixelMap :=
  (List.range len).foldl (fun dAcc dx => writeRGB dAcc (px + dx) py r g b) d

/-- The `for (y2 = py; y2 < py + pixelSize && y2 < height; y2++)` loop
(line 294) writing `m` consecutive rows. -/
def fillRows (d : PixelMap) (px py r g b len m : ℕ) : PixelMap :=
  (List.range m).foldl (fun dAcc dy => fillRow dAcc px (py + dy) r g b len) d

/-- Both inner loops of one block (lines 294-301): every pixel of the
block clipped to the region gets the RGB triple. -/
def fillBlock (d : PixelMap) (px py pixelSize width height r g b : ℕ) : PixelMap :=
  fillRows d px py r g b (min (px + pixelSize) width - px)
    (min (py + pixelSize) height - py)

/-- Start offsets visited by `for (p = 0; p < n; p += pixelSize)`:
`0, pixelSize, 2*pixelSize, ...` while `< n`. -/
def blockStarts (n pixelSize : ℕ) : List ℕ :=
  (List.range ((n + pixelSize - 1) / pixelSize)).map (· * pixelSize)

/-- The inner `px` loop (lines 289-301): for each block start in the row,
read the top-left source pixel *from the current data* (lines 290-292) and
flood its RGB through the block. -/
def mosaicBlockRow (d : PixelMap) (py pixelSize width height : ℕ) : PixelMap :=
  (blockStarts width pixelSize).foldl
    (fun dAcc px =>
      let c := dAcc px py
      fillBlock dAcc px py pixelSize width height c.r c.g c.b) d

/-- The outer `py` loop (line 288). -/
def mosaicLoop (d : PixelMap) (width height pixelSize : ℕ) : PixelMap :=
  (blockStarts height pixelSize).foldl
    (fun dAcc py => mosaicBlockRow dAcc py pixelSize width height) d

/-- Source `applyMosaicAction` (lines 279-306) acting on the extracted region:
`pixelSize = Math.max(5, intensity)` (line 283), then the block loops. -/
def applyMosaicAction (d : PixelMap) (width height intensity : ℕ) : PixelMap :=
  mosaicLoop d width height (max 5 intensity)

end ImageProcessor

/-! ## Claims -/

/-- C3 (counterexample): the claim "toPhysical(rect, scale) has origin
floor(rect.x*scale), floor(rect.y*scale) and extent round(rect.width*scale),
round(rect.height*scale)" is false for the source's
`CoordinateSystem.toPhysicalPixels`: at `rect = {1,1,1,1}` and
`scale = 3/2 > 0` the source returns `{3/2, 3/2, 3/2, 3/2}` while the
floor/round form gives `{1, 1, 2, 2}`. -/
theorem toPhysicalPixels_claim_false :
    (0 : ℚ) < 3 / 2 ∧
    CoordinateSystem.toPhysicalPixels ⟨1, 1, 1, 1⟩ (3 / 2) ≠
      CoordinateSystem.toPhysicalSpec ⟨1, 1, 1, 1⟩ (3 / 2) := by
  constructor
  · norm_num
  · intro h
    have hx := congrArg RectQ.x h
    simp [CoordinateSystem.toPhysicalPixels, CoordinateSystem.toPhysicalSpec,
      jsFloor] at hx
    norm_num at hx

/-- C3 (amended): `toPhysicalPixels` multiplies every component by the
scale factor exactly, with no floor on the origin and no round on the
extent; consequently the conversion is lossless — `toLogicalPixels`
inverts it exactly for every nonzero scale. -/
theorem toPhysicalPixels_exact_scaling (r : RectQ) (s : ℚ) (hs : s ≠ 0) :
    CoordinateSystem.toPhysicalPixels r s =
      { x := r.x * s, y := r.y * s, width := r.width * s, height := r.height * s } ∧
    CoordinateSystem.toLogicalPixels (CoordinateSystem.toPhysicalPixels r s) s = r := by
  refine ⟨rfl, ?_⟩
  cases r
  simp [CoordinateSystem.toPhysicalPixels, CoordinateSystem.toLogicalPixels,
    mul_div_cancel_right₀, hs]

/-- Witness for `toPhysicalPixels_exact_scaling` at `r = {1,2,3,4}`,
`s = 2`. -/
theorem toPhysicalPixels_exact_scaling_witness :
    (2 : ℚ) ≠ 0 ∧
    CoordinateSystem.toLogicalPixels
      (CoordinateSystem.toPhysicalPixels ⟨1, 2, 3, 4⟩ 2) 2 = ⟨1, 2, 3, 4⟩ :=
  ⟨by norm_num, (toPhysicalPixels_exact_scaling ⟨1, 2, 3, 4⟩ 2 (by norm_num)).2⟩

/-- C8 (confirmed): a drag gesture whose pointer-up bounds have width ≤ 5
or height ≤ 5 logical pixels delivers no selection result (the renderer
never sends `overlay:selection-complete`, so the session never completes),
the overlay returns to the idle non-selecting state, and a new pointer-down
starts a fresh drag. -/
theorem smallDrag_never_completes (s : OverlayUIState)
    (hsel : s.isSelecting = true)
    (hsmall : (ScreenshotOverlay.getSelectionBounds s).width ≤ 5 ∨
      (ScreenshotOverlay.getSelectionBounds s).height ≤ 5) :
    (ScreenshotOverlay.onMouseUp s).2 = none ∧
    (ScreenshotOverlay.onMouseUp s).1.isSelecting = false ∧
    ∀ cx cy : ℚ,
      (ScreenshotOverlay.onMouseDown (ScreenshotOverlay.onMouseUp s).1 cx cy).isSelecting
        = true := by
  have hb : ScreenshotOverlay.getSelectionBounds { s with isSelecting := false } =
      ScreenshotOverlay.getSelectionBounds s := rfl
  have hcond : ¬ ((ScreenshotOverlay.getSelectionBounds s).width > 5 ∧
      (ScreenshotOverlay.getSelectionBounds s).height > 5) := by
    rcases hsmall with h | h
    · exact fun hc => absurd hc.1 (not_lt.mpr h)
    · exact fun hc => absurd hc.2 (not_lt.mpr h)
  unfold ScreenshotOverlay.onMouseUp
  rw [hsel]
  simp [hb, if_neg hcond, ScreenshotOverlay.onMouseDown]

/-- Witness for `smallDrag_never_completes`: a drag from `(0,0)` to
`(3,10)` (width 3 ≤ 5). -/
theorem smallDrag_never_completes_witness :
    (⟨true, 0, 0, 3, 10⟩ : OverlayUIState).isSelecting = true ∧
    ((ScreenshotOverlay.getSelectionBounds ⟨true, 0, 0, 3, 10⟩).width ≤ 5 ∨
      (ScreenshotOverlay.getSelectionBounds ⟨true, 0, 0, 3, 10⟩).height ≤ 5) ∧
    (ScreenshotOverlay.onMouseUp ⟨true, 0, 0, 3, 10⟩).2 = none :=
  ⟨rfl, Or.inl (by norm_num [ScreenshotOverlay.getSelectionBounds]),
    (smallDrag_never_completes ⟨true, 0, 0, 3, 10⟩ rfl
      (Or.inl (by norm_num [ScreenshotOverlay.getSelectionBounds]))).1⟩

/-- A concrete two-display topology for exercising the region-selection
pipeline: display "1" at the logical origin, display "2" to its right at
`x = 1920`, both 1920×1080 at scale 1.  The overlay selection delivered is
the surface-local rectangle `{100,100,200,200}` of a drag performed on
display "2". -/
def twoDisplayEnv : ManagerEnv :=
  { displays := [⟨"1", ⟨0, 0, 1920, 1080⟩, 1⟩, ⟨"2", ⟨1920, 0, 1920, 1080⟩, 1⟩]
    primaryId := "1"
    nearestId := fun x _ => if x < 1920 then "1" else "2"
    selection := some ⟨100, 100, 200, 200⟩
    capture :=
      { screenSources := [⟨"screen:1", "1"⟩, ⟨"screen:2", "2"⟩]
        fullScreenSources := fun _ =>
          [⟨"screen:1", false, ⟨1920, 1080⟩⟩, ⟨"screen:2", false, ⟨1920, 1080⟩⟩]
        windowSources := []
        fullWindowSources := fun _ => [] } }

/-- C2 (code bug): the spec says a completed session returns its
surface-local rectangle translated by the owning display's logical origin.
The code (`OverlayWindow.setupEventHandlers`, part_004 lines 416-458)
returns the surface-local rectangle unchanged: for a drag on display "2"
(origin `(1920,0)`) ending with local bounds `{100,100,200,200}`, the
value handed upward is `{100,100,200,200}`, not the global
`{2020,100,200,200}`; `captureRegion` then treats it as global and
captures the `{100,100,200,200}` region of display "1" — the wrong
display.  (`DisplayManager.normalizeCoordinates`, which implements exactly
the specified translation, is never called.) -/
theorem completed_selection_not_translated :
    overlayDeliveredBounds (some ⟨100, 100, 200, 200⟩) = some ⟨100, 100, 200, 200⟩ ∧
    completedBoundsSpec ⟨100, 100, 200, 200⟩ ⟨"2", ⟨1920, 0, 1920, 1080⟩, 1⟩ =
      ⟨2020, 100, 200, 200⟩ ∧
    (⟨100, 100, 200, 200⟩ : RectQ) ≠
      completedBoundsSpec ⟨100, 100, 200, 200⟩ ⟨"2", ⟨1920, 0, 1920, 1080⟩, 1⟩ ∧
    (ScreenshotManager.captureRegionWithSelection ⟨0⟩ 1000 twoDisplayEnv {}).2 =
      .ok ⟨200, 200, "1", 1⟩ := by
  refine ⟨rfl, ?_, ?_, ?_⟩
  · norm_num [completedBoundsSpec]
  · intro h
    have hx := congrArg RectQ.x h
    norm_num [completedBoundsSpec] at hx
  · norm_num [ScreenshotManager.captureRegionWithSelection, overlayDeliveredBounds,
      ScreenshotManager.captureRegion, DisplayManager.getDisplayAtPoint,
      DisplayManager.getDisplay, DisplayManager.convertToDisplayCoordinates,
      twoDisplayEnv, jsRound, jsFloor, ScreenshotCapture.captureScreen,
      ScreenshotCapture.captureScreenRest,
      maxThumbnailSize, minCaptureInterval, ScreenshotManager.setScale,
      List.find?, Except.map]

/-- A single retina display "1": logical bounds 1920×1080 at scale factor
2, so its full physical resolution is 3840×2160.  The enumeration oracle
answers a 3840×2160 frame when asked for a 3840×2160 thumbnail and a
1920×1080 frame for any other request. -/
def retinaEnv : CaptureEnv :=
  { screenSources := [⟨"screen:0:0", "1"⟩]
    fullScreenSources := fun sz =>
      if sz = ⟨3840, 2160⟩ then [⟨"screen:0:0", false, ⟨3840, 2160⟩⟩]
      else [⟨"screen:0:0", false, ⟨1920, 1080⟩⟩]
    windowSources := []
    fullWindowSources := fun _ => [] }

/-- C4 (counterexample): the claim "the second enumeration requests a
thumbnail size equal to the target display's full physical resolution" is
false.  On a 1920×1080 display with scale factor 2 the full physical
resolution is 3840×2160, but `captureScreen` returns the frame the oracle
associates with its actual request — the fixed `MAX_THUMBNAIL_SIZE`
1920×1080 — and not the 3840×2160 full-resolution frame. -/
theorem captureScreen_thumbnail_claim_false :
    (CoordinateSystem.toPhysicalPixels ⟨0, 0, 1920, 1080⟩ 2).width = 3840 ∧
    (CoordinateSystem.toPhysicalPixels ⟨0, 0, 1920, 1080⟩ 2).height = 2160 ∧
    maxThumbnailSize ≠ (⟨3840, 2160⟩ : SizeQ) ∧
    (ScreenshotCapture.captureScreen ⟨0⟩ 1000 retinaEnv
      { displayId := some "1" }).2 = .ok ⟨1920, 1080, "1", 1⟩ := by
  refine ⟨?_, ?_, ?_, ?_⟩
  · norm_num [CoordinateSystem.toPhysicalPixels]
  · norm_num [CoordinateSystem.toPhysicalPixels]
  · intro h
    have hw := congrArg SizeQ.width h
    norm_num [maxThumbnailSize] at hw
  · norm_num [ScreenshotCapture.captureScreen,
      ScreenshotCapture.captureScreenRest, retinaEnv, maxThumbnailSize,
      minCaptureInterval, List.find?]

/-- C4 (amended): the second enumeration always requests the fixed
`MAX_THUMBNAIL_SIZE` of 1920×1080, independent of the target display:
`captureScreen`'s outcome depends only on the oracle's answer at
`maxThumbnailSize` (and on the first source list), never on the answer at
the display's physical resolution or any other size. -/
theorem captureScreen_requests_fixed_thumbnail (st : CaptureState) (now : ℤ)
    (opts : ScreenshotOptsM) (env1 env2 : CaptureEnv)
    (hs : env1.screenSources = env2.screenSources)
    (hf : env1.fullScreenSources maxThumbnailSize =
      env2.fullScreenSources maxThumbnailSize) :
    ScreenshotCapture.captureScreen st now env1 opts =
      ScreenshotCapture.captureScreen st now env2 opts := by
  have hrest : ∀ st2 o t, ScreenshotCapture.captureScreenRest st2 env1 o t =
      ScreenshotCapture.captureScreenRest st2 env2 o t := by
    intro st2 o t
    unfold ScreenshotCapture.captureScreenRest
    rw [hf]
  simp only [ScreenshotCapture.captureScreen, hs, hrest]

/-- Witness for `captureScreen_requests_fixed_thumbnail`: two oracles that
agree at `maxThumbnailSize` but disagree at 3840×2160 give identical
captures. -/
theorem captureScreen_requests_fixed_thumbnail_witness :
    (retinaEnv.fullScreenSources maxThumbnailSize =
      (CaptureEnv.mk [⟨"screen:0:0", "1"⟩]
        (fun _ => [⟨"screen:0:0", false, ⟨1920, 1080⟩⟩]) []
        (fun _ => [])).fullScreenSources maxThumbnailSize) ∧
    ScreenshotCapture.captureScreen ⟨0⟩ 1000 retinaEnv { displayId := some "1" } =
      ScreenshotCapture.captureScreen ⟨0⟩ 1000
        (CaptureEnv.mk [⟨"screen:0:0", "1"⟩]
          (fun _ => [⟨"screen:0:0", false, ⟨1920, 1080⟩⟩]) []
          (fun _ => [])) { displayId := some "1" } := by
  have hf : retinaEnv.fullScreenSources maxThumbnailSize =
      (CaptureEnv.mk [⟨"screen:0:0", "1"⟩]
        (fun _ => [⟨"screen:0:0", false, ⟨1920, 1080⟩⟩]) []
        (fun _ => [])).fullScreenSources maxThumbnailSize := by
    norm_num [retinaEnv, maxThumbnailSize]
  exact ⟨hf, captureScreen_requests_fixed_thumbnail ⟨0⟩ 1000
    { displayId := some "1" } _ _ rfl hf⟩

/-- Modelled from the spec (§4.4 step 3), for comparison with the source's
bounds handling: clamp the origin into `[0, size-1]` and shrink the extent
to the remaining frame. -/
def clampBoundsSpec (b : RectQ) (size : SizeQ) : RectQ :=
  let cx := max 0 (min b.x (size.width - 1))
  let cy := max 0 (min b.y (size.height - 1))
  { x := cx, y := cy,
    width := min b.width (size.width - cx),
    height := min b.height (size.height - cy) }

/-- A single 100×100 frame on display "1" for exercising the bounds
check. -/
def smallFrameEnv : CaptureEnv :=
  { screenSources := [⟨"screen:0:0", "1"⟩]
    fullScreenSources := fun _ => [⟨"screen:0:0", false, ⟨100, 100⟩⟩]
    windowSources := []
    fullWindowSources := fun _ => [] }

/-- C1 (counterexample): the claim "bounds partially outside the frame are
clamped and the call succeeds whenever the clamped rectangle is non-empty"
is false.  For a 100×100 frame and bounds `{-10, 0, 50, 50}` the spec's
clamp gives the non-empty rectangle `{0, 0, 50, 50}` (both extents ≥ 1px),
yet `captureScreen` fails with the invalid-bounds error instead of
succeeding. -/
theorem captureScreen_clamp_claim_false :
    clampBoundsSpec ⟨-10, 0, 50, 50⟩ ⟨100, 100⟩ = ⟨0, 0, 50, 50⟩ ∧
    (1 : ℚ) ≤ (clampBoundsSpec ⟨-10, 0, 50, 50⟩ ⟨100, 100⟩).width ∧
    (1 : ℚ) ≤ (clampBoundsSpec ⟨-10, 0, 50, 50⟩ ⟨100, 100⟩).height ∧
    ScreenshotCapture.captureScreen ⟨0⟩ 1000 smallFrameEnv
      { displayId := some "1", bounds := some ⟨-10, 0, 50, 50⟩ } =
      (⟨1000⟩, .error .invalidBounds) := by
  refine ⟨?_, ?_, ?_, ?_⟩
  · norm_num [clampBoundsSpec]
  · norm_num [clampBoundsSpec]
  · norm_num [clampBoundsSpec]
  · norm_num [ScreenshotCapture.captureScreen,
      ScreenshotCapture.captureScreenRest, smallFrameEnv, maxThumbnailSize,
      minCaptureInterval, List.find?]

/-- C1 (amended): `captureScreen` never clamps explicit bounds.  Once the
call has passed the throttle and resolved a non-empty full source, a
`bounds` rectangle is rejected with the invalid-bounds error whenever it
extends at all outside the frame (`x < 0`, `y < 0`, `x + width` or
`y + height` beyond the frame size), is rejected with the invalid-dimension
error when `width < 1` or `height < 1`, and otherwise the call succeeds
with exactly the given rectangle. -/
theorem captureScreen_bounds_validation (st : CaptureState) (now : ℤ)
    (env : CaptureEnv) (b : RectQ) (d : String) (target : SourceM) (full : FullSourceM)
    (hthr : minCaptureInterval ≤ now - st.lastCaptureTime)
    (htgt : env.screenSources.find? (fun s => s.displayId == d) = some target)
    (hfull : (env.fullScreenSources maxThumbnailSize).find?
      (fun s => s.id == target.id) = some full)
    (hne : full.thumbnailEmpty = false) :
    ScreenshotCapture.captureScreen st now env { displayId := some d, bounds := some b } =
      (⟨now⟩,
        if b.x < 0 ∨ b.y < 0 ∨ b.x + b.width > full.thumbSize.width ∨
            b.y + b.height > full.thumbSize.height then
          .error .invalidBounds
        else if b.width < 1 ∨ b.height < 1 then
          .error .invalidBoundsDim
        else
          .ok { width := b.width, height := b.height,
                displayId := target.displayId, scaleFactor := 1 }) := by
  have hlt : ¬ now - st.lastCaptureTime < minCaptureInterval := not_lt.mpr hthr
  have hemp : env.screenSources.isEmpty = false := by
    cases hsrc : env.screenSources with
    | nil => rw [hsrc] at htgt; simp [List.find?] at htgt
    | cons a l => simp [hsrc]
  unfold ScreenshotCapture.captureScreen
  rw [if_neg hlt]
  simp only [hemp, Bool.false_eq_true, if_false, htgt]
  unfold ScreenshotCapture.captureScreenRest
  simp only [hfull, hne, Bool.false_eq_true, if_false]
  split_ifs <;> rfl

/-- Witness for `captureScreen_bounds_validation`: in-frame bounds
`{10, 10, 30, 30}` on the 100×100 frame are accepted unchanged. -/
theorem captureScreen_bounds_validation_witness :
    minCaptureInterval ≤ 1000 - (0 : ℤ) ∧
    ScreenshotCapture.captureScreen ⟨0⟩ 1000 smallFrameEnv
      { displayId := some "1", bounds := some ⟨10, 10, 30, 30⟩ } =
      (⟨1000⟩, .ok { width := 30, height := 30, displayId := "1", scaleFactor := 1 }) := by
  have h := captureScreen_bounds_validation ⟨0⟩ 1000 smallFrameEnv ⟨10, 10, 30, 30⟩
    "1" ⟨"screen:0:0", "1"⟩ ⟨"screen:0:0", false, ⟨100, 100⟩⟩
    (by norm_num [minCaptureInterval])
    (by norm_num [smallFrameEnv, List.find?])
    (by norm_num [smallFrameEnv, List.find?, maxThumbnailSize])
    rfl
  refine ⟨by norm_num [minCaptureInterval], ?_⟩
  rw [h]
  norm_num

/-- A throttled call (capture.ts lines 63-65) returns the too-frequent
error and leaves `lastCaptureTime` — the whole capture state — untouched. -/
theorem captureScreen_throttled (st : CaptureState) (now : ℤ) (env : CaptureEnv)
    (opts : ScreenshotOptsM) (h : now - st.lastCaptureTime < minCaptureInterval) :
    ScreenshotCapture.captureScreen st now env opts = (st, .error .tooFrequent) := by
  unfold ScreenshotCapture.captureScreen
  rw [if_pos h]

/-- The shared capture tail keeps the recorded state and never produces
the too-frequent or single-flight error (those arise only earlier /
at the manager layer). -/
theorem captureScreenRest_cases (st2 : CaptureState) (env : CaptureEnv)
    (opts : ScreenshotOptsM) (target : SourceM) :
    ∃ r, ScreenshotCapture.captureScreenRest st2 env opts target = (st2, r) ∧
      r ≠ .error .tooFrequent ∧ r ≠ .error .alreadyInProgress := by
  unfold ScreenshotCapture.captureScreenRest
  repeat' split
  all_goals exact ⟨_, rfl, by simp, by simp⟩

/-- A call that passes the throttle records `lastCaptureTime := now` and
can fail for many reasons, but never with the too-frequent error (nor the
single-flight error). -/
theorem captureScreen_passed (st : CaptureState) (now : ℤ) (env : CaptureEnv)
    (opts : ScreenshotOptsM) (h : ¬ now - st.lastCaptureTime < minCaptureInterval) :
    ∃ r, ScreenshotCapture.captureScreen st now env opts = (⟨now⟩, r) ∧
      r ≠ .error .tooFrequent ∧ r ≠ .error .alreadyInProgress := by
  unfold ScreenshotCapture.captureScreen
  rw [if_neg h]
  repeat' split
  all_goals first
    | exact ⟨_, rfl, by simp, by simp⟩
    | exact captureScreenRest_cases _ _ _ _

/-- Source `captureWindow` performs no throttle check: the capture state is
returned unchanged and its result is never the too-frequent error (nor the
single-flight error). -/
theorem captureWindow_cases (st : CaptureState) (env : CaptureEnv)
    (windowId : String) :
    ∃ r, ScreenshotCapture.captureWindow st env windowId = (st, r) ∧
      r ≠ .error .tooFrequent ∧ r ≠ .error .alreadyInProgress := by
  unfold ScreenshotCapture.captureWindow
  repeat' split
  all_goals exact ⟨_, rfl, by simp, by simp⟩

/-- C10 (confirmed): a `captureScreen` call rejected by the throttle does
not update `lastCaptureTime`: any sequence of calls all landing inside the
200ms window leaves the capture state exactly as it was, and a call
arriving at least 200ms after the last non-rejected capture is not
rejected by the throttle, no matter how many rejected calls happened in
between. -/
theorem captureScreen_rejections_no_extend (st : CaptureState) (env : CaptureEnv)
    (opts : ScreenshotOptsM) (ts : List ℤ)
    (hts : ∀ t ∈ ts, t - st.lastCaptureTime < minCaptureInterval) :
    ts.foldl (fun s t => (ScreenshotCapture.captureScreen s t env opts).1) st = st ∧
    ∀ now : ℤ, minCaptureInterval ≤ now - st.lastCaptureTime →
      (ScreenshotCapture.captureScreen
        (ts.foldl (fun s t => (ScreenshotCapture.captureScreen s t env opts).1) st)
        now env opts).2 ≠ .error .tooFrequent := by
  have hfold : ts.foldl (fun s t => (ScreenshotCapture.captureScreen s t env opts).1) st
      = st := by
    induction ts with
    | nil => rfl
    | cons t ts ih =>
      rw [List.foldl_cons,
        captureScreen_throttled st t env opts (hts t (List.mem_cons_self t ts))]
      exact ih fun u hu => hts u (List.mem_cons_of_mem t hu)
  refine ⟨hfold, fun now hnow => ?_⟩
  rw [hfold]
  obtain ⟨r, hr, hr1, _⟩ := captureScreen_passed st now env opts (not_lt.mpr hnow)
  rw [hr]
  exact hr1

/-- Witness for `captureScreen_rejections_no_extend`: two rejected calls
at 50ms and 100ms do not move the throttle window recorded at 0ms, and a
call at 300ms passes the throttle. -/
theorem captureScreen_rejections_no_extend_witness :
    (∀ t ∈ ([50, 100] : List ℤ), t - (⟨0⟩ : CaptureState).lastCaptureTime <
      minCaptureInterval) ∧
    ([50, 100] : List ℤ).foldl
      (fun s t => (ScreenshotCapture.captureScreen s t smallFrameEnv {}).1) ⟨0⟩ = ⟨0⟩ ∧
    (ScreenshotCapture.captureScreen
      (([50, 100] : List ℤ).foldl
        (fun s t => (ScreenshotCapture.captureScreen s t smallFrameEnv {}).1) ⟨0⟩)
      300 smallFrameEnv {}).2 ≠ .error .tooFrequent := by
  have hts : ∀ t ∈ ([50, 100] : List ℤ), t - (⟨0⟩ : CaptureState).lastCaptureTime <
      minCaptureInterval := by decide
  have h := captureScreen_rejections_no_extend ⟨0⟩ smallFrameEnv {} [50, 100] hts
  exact ⟨hts, h.1, h.2 300 (by decide)⟩

/-- An environment with one capturable window "win:1" on display "42". -/
def windowEnv : ManagerEnv :=
  { displays := []
    primaryId := "1"
    nearestId := fun _ _ => "1"
    selection := none
    capture :=
      { screenSources := []
        fullScreenSources := fun _ => []
        windowSources := [⟨"win:1", "42"⟩]
        fullWindowSources := fun _ => [⟨"win:1", false, ⟨800, 600⟩⟩] } }

/-- C5 (counterexample): the claim "for every pair of takeScreenshot calls
in any mode, a second call less than 200ms after the recorded
lastCaptureTime fails TooFrequent" is false in window mode: with
`lastCaptureTime = 1000`, a window capture at `now = 1100` (100ms later)
succeeds — `captureWindow` never consults the throttle. -/
theorem takeScreenshot_throttle_claim_false :
    (1100 : ℤ) - 1000 < minCaptureInterval ∧
    ScreenshotManager.takeScreenshot ⟨false, ⟨1000⟩⟩ .window 1100 windowEnv
      { displayId := some "win:1" } =
      (⟨false, ⟨1000⟩⟩, .ok ⟨800, 600, "42", 1⟩) := by
  exact ⟨by decide, rfl⟩

/-- C5 (amended): the 200ms minimum interval is enforced only on the
`captureScreen` path: a fullscreen-mode call (and a region-mode call whose
selection and display resolve) arriving less than 200ms after the recorded
`lastCaptureTime` fails with the too-frequent error, while a window-mode
call is never rejected with it. -/
theorem takeScreenshot_throttle_by_mode (st : SysState) (now : ℤ)
    (env : ManagerEnv) (opts : ScreenshotOptsM)
    (hcap : st.isCapturing = false)
    (hthr : now - st.cap.lastCaptureTime < minCaptureInterval) :
    (∀ p, DisplayManager.getPrimaryDisplay env = some p →
      (ScreenshotManager.takeScreenshot st .fullscreen now env
        { opts with displayId := none }).2 = .error .tooFrequent) ∧
    (∀ b disp, env.selection = some b →
      DisplayManager.getDisplayAtPoint env (b.x + b.width / 2) (b.y + b.height / 2) =
        some disp →
      (ScreenshotManager.takeScreenshot st .region now env opts).2 =
        .error .tooFrequent) ∧
    (∀ windowId,
      (ScreenshotManager.takeScreenshot st .window now env
        { opts with displayId := some windowId }).2 ≠ .error .tooFrequent) := by
  have hth : ∀ o, ScreenshotCapture.captureScreen st.cap now env.capture o =
      (st.cap, .error .tooFrequent) := fun o =>
    captureScreen_throttled st.cap now env.capture o hthr
  refine ⟨?_, ?_, ?_⟩
  · intro p hp
    simp only [ScreenshotManager.takeScreenshot, hcap, Bool.false_eq_true, if_false,
      ScreenshotManager.captureFullscreen, hp, hth, Except.map]
  · intro b disp hb hd
    have hkey : (disp.id == env.nearestId (b.x + b.width / 2) (b.y + b.height / 2))
        = true := by
      have := List.find?_some hd
      simpa using this
    have hget : DisplayManager.getDisplay env disp.id = some disp := by
      unfold DisplayManager.getDisplayAtPoint at hd
      rw [show disp.id = env.nearestId (b.x + b.width / 2) (b.y + b.height / 2) from
        by simpa using hkey]
      exact hd
    simp only [ScreenshotManager.takeScreenshot, hcap, Bool.false_eq_true, if_false,
      ScreenshotManager.captureRegionWithSelection, overlayDeliveredBounds, hb,
      ScreenshotManager.captureRegion, hd,
      DisplayManager.convertToDisplayCoordinates, hget, hth, Except.map]
  · intro windowId
    obtain ⟨r, hr, hr1, _⟩ := captureWindow_cases st.cap env.capture windowId
    simp only [ScreenshotManager.takeScreenshot, hcap, Bool.false_eq_true, if_false,
      hr]
    exact hr1

/-- One display "1" with a 100×100 frame, and a pending 20×20 selection,
for exercising the throttle on all three modes. -/
def oneDisplayEnv : ManagerEnv :=
  { displays := [⟨"1", ⟨0, 0, 1920, 1080⟩, 1⟩]
    primaryId := "1"
    nearestId := fun _ _ => "1"
    selection := some ⟨10, 10, 20, 20⟩
    capture := smallFrameEnv }

/-- Witness for `takeScreenshot_throttle_by_mode`: at 100ms after the last
capture, fullscreen and region calls fail too-frequent while a window call
does not. -/
theorem takeScreenshot_throttle_by_mode_witness :
    ((1100 : ℤ) - 1000 < minCaptureInterval) ∧
    (ScreenshotManager.takeScreenshot ⟨false, ⟨1000⟩⟩ .fullscreen 1100 oneDisplayEnv
      { ({} : ScreenshotOptsM) with displayId := none }).2 = .error .tooFrequent ∧
    (ScreenshotManager.takeScreenshot ⟨false, ⟨1000⟩⟩ .region 1100 oneDisplayEnv
      {}).2 = .error .tooFrequent ∧
    (ScreenshotManager.takeScreenshot ⟨false, ⟨1000⟩⟩ .window 1100 oneDisplayEnv
      { ({} : ScreenshotOptsM) with displayId := some "w" }).2 ≠
      .error .tooFrequent := by
  have h := takeScreenshot_throttle_by_mode ⟨false, ⟨1000⟩⟩ 1100 oneDisplayEnv {}
    rfl (by decide)
  exact ⟨by decide, h.1 ⟨"1", ⟨0, 0, 1920, 1080⟩, 1⟩ rfl,
    h.2.1 ⟨10, 10, 20, 20⟩ ⟨"1", ⟨0, 0, 1920, 1080⟩, 1⟩ rfl rfl, h.2.2 "w"⟩

/-- Mapping the scale-factor stamp over a result cannot introduce an
error. -/
theorem except_map_ne_error (f : ScreenshotDataM → ScreenshotDataM)
    (x : Except CaptureErr ScreenshotDataM) (e : CaptureErr)
    (hx : x ≠ .error e) : x.map f ≠ .error e := by
  cases x <;> simp_all [Except.map]

/-- Source `captureScreen` never produces the single-flight error (it exists only
at the `ScreenshotManager` layer). -/
theorem captureScreen_ne_already (st : CaptureState) (now : ℤ) (env : CaptureEnv)
    (opts : ScreenshotOptsM) :
    (ScreenshotCapture.captureScreen st now env opts).2 ≠ .error .alreadyInProgress := by
  by_cases h : now - st.lastCaptureTime < minCaptureInterval
  · rw [captureScreen_throttled st now env opts h]
    simp
  · obtain ⟨r, hr, _, h2⟩ := captureScreen_passed st now env opts h
    rw [hr]
    exact h2

/-- Source `captureFullscreen` never produces the single-flight error. -/
theorem captureFullscreen_ne_already (capSt : CaptureState) (now : ℤ)
    (env : ManagerEnv) (opts : ScreenshotOptsM) :
    (ScreenshotManager.captureFullscreen capSt now env opts).2 ≠
      .error .alreadyInProgress := by
  unfold ScreenshotManager.captureFullscreen
  repeat' split
  all_goals first
    | exact except_map_ne_error _ _ _ (captureScreen_ne_already _ _ _ _)
    | simp

/-- Source `captureRegion` never produces the single-flight error. -/
theorem captureRegion_ne_already (capSt : CaptureState) (now : ℤ)
    (env : ManagerEnv) (opts : ScreenshotOptsM) :
    (ScreenshotManager.captureRegion capSt now env opts).2 ≠
      .error .alreadyInProgress := by
  unfold ScreenshotManager.captureRegion
  cases hb : opts.bounds with
  | none => simp
  | some b =>
    cases hd : DisplayManager.getDisplayAtPoint env
        (b.x + b.width / 2) (b.y + b.height / 2) with
    | none => simp [hd]
    | some display =>
      simp only [hd]
      cases hc : DisplayManager.convertToDisplayCoordinates env b.x b.y
          display.id with
      | none => simp [hc]
      | some db =>
        simp only [hc]
        exact except_map_ne_error _ _ _ (captureScreen_ne_already _ _ _ _)

/-- Source `captureRegionWithSelection` never produces the single-flight error. -/
theorem captureRegionWithSelection_ne_already (capSt : CaptureState) (now : ℤ)
    (env : ManagerEnv) (opts : ScreenshotOptsM) :
    (ScreenshotManager.captureRegionWithSelection capSt now env opts).2 ≠
      .error .alreadyInProgress := by
  unfold ScreenshotManager.captureRegionWithSelection
  cases hs : overlayDeliveredBounds env.selection with
  | none => simp
  | some b => exact captureRegion_ne_already _ _ _ _

/-- A `takeScreenshot` call that passes the single-flight guard never
results in the single-flight error. -/
theorem takeScreenshot_ne_already (st : SysState) (mode : ScreenshotMode)
    (now : ℤ) (env : ManagerEnv) (opts : ScreenshotOptsM)
    (h : st.isCapturing = false) :
    (ScreenshotManager.takeScreenshot st mode now env opts).2 ≠
      .error .alreadyInProgress := by
  simp only [ScreenshotManager.takeScreenshot, h, Bool.false_eq_true, if_false]
  cases mode with
  | fullscreen => exact captureFullscreen_ne_already _ _ _ _
  | region => exact captureRegionWithSelection_ne_already _ _ _ _
  | window =>
    cases hop : opts.displayId with
    | none => simp [hop]
    | some windowId =>
      obtain ⟨r, hr, _, h2⟩ := captureWindow_cases st.cap env.capture windowId
      simp only [hop, hr]
      exact h2

/-- C6 (confirmed): a `takeScreenshot` call arriving while a capture is in
flight fails immediately with the already-in-progress error, leaving the
whole state untouched (no second capture is started); when the guard is
passed, the in-flight flag is cleared on every exit path (the `finally`
block), so a subsequent call — whatever its mode, time, or environment —
is never rejected with the already-in-progress error. -/
theorem takeScreenshot_single_flight (st : SysState) (mode mode' : ScreenshotMode)
    (now now' : ℤ) (env env' : ManagerEnv) (opts opts' : ScreenshotOptsM) :
    (st.isCapturing = true →
      ScreenshotManager.takeScreenshot st mode now env opts =
        (st, .error .alreadyInProgress)) ∧
    (st.isCapturing = false →
      (ScreenshotManager.takeScreenshot st mode now env opts).1.isCapturing = false ∧
      (ScreenshotManager.takeScreenshot
        (ScreenshotManager.takeScreenshot st mode now env opts).1
        mode' now' env' opts').2 ≠ .error .alreadyInProgress) := by
  constructor
  · intro h
    simp [ScreenshotManager.takeScreenshot, h]
  · intro h
    have h1 : (ScreenshotManager.takeScreenshot st mode now env opts).1.isCapturing
        = false := by
      simp only [ScreenshotManager.takeScreenshot, h, Bool.false_eq_true, if_false]
    exact ⟨h1, takeScreenshot_ne_already _ _ _ _ _ h1⟩

/-- Witness for `takeScreenshot_single_flight`: a call with the flag set is
rejected with the state unchanged; with the flag clear, the flag is clear
again after the call and a follow-up call is not rejected. -/
theorem takeScreenshot_single_flight_witness :
    (ScreenshotManager.takeScreenshot ⟨true, ⟨0⟩⟩ .fullscreen 1000 oneDisplayEnv {} =
      (⟨true, ⟨0⟩⟩, .error .alreadyInProgress)) ∧
    (ScreenshotManager.takeScreenshot ⟨false, ⟨0⟩⟩ .fullscreen 1000 oneDisplayEnv
      {}).1.isCapturing = false ∧
    (ScreenshotManager.takeScreenshot
      (ScreenshotManager.takeScreenshot ⟨false, ⟨0⟩⟩ .fullscreen 1000 oneDisplayEnv
        {}).1
      .fullscreen 1100 oneDisplayEnv {}).2 ≠ .error .alreadyInProgress := by
  have ha := (takeScreenshot_single_flight ⟨true, ⟨0⟩⟩ .fullscreen .fullscreen
    1000 1100 oneDisplayEnv oneDisplayEnv {} {}).1 rfl
  have hb := (takeScreenshot_single_flight ⟨false, ⟨0⟩⟩ .fullscreen .fullscreen
    1000 1100 oneDisplayEnv oneDisplayEnv {} {}).2 rfl
  exact ⟨ha, hb.1, hb.2⟩

/-- Every single operation preserves the cursor invariant. -/
theorem editor_step_preserves_inv (st : EditorState) (op : EditorManager.EditorOp)
    (h : EditorManager.cursorInv st) :
    EditorManager.cursorInv (EditorManager.step st op) := by
  obtain ⟨h1, h2⟩ := h
  cases op with
  | apply a procOk =>
    simp only [EditorManager.step, EditorManager.applyAction]
    split_ifs with hinit hproc hcur
    · exact ⟨h1, h2⟩
    · exact ⟨h1, h2⟩
    · refine ⟨?_, ?_⟩ <;>
      · simp only [EditorManager.cursorInv, List.length_append, List.length_take,
          List.length_cons, List.length_nil]
        omega
    · refine ⟨?_, ?_⟩ <;>
      · simp only [EditorManager.cursorInv, List.length_append, List.length_cons,
          List.length_nil]
        omega
  | undo =>
    simp only [EditorManager.step, EditorManager.undo]
    split_ifs with hguard
    · exact ⟨h1, h2⟩
    · push_neg at hguard
      refine ⟨?_, ?_⟩ <;>
      · simp only [EditorManager.cursorInv]
        omega
  | redo =>
    simp only [EditorManager.step, EditorManager.redo]
    split_ifs with hguard
    · exact ⟨h1, h2⟩
    · push_neg at hguard
      refine ⟨?_, ?_⟩ <;>
      · simp only [EditorManager.cursorInv]
        omega

/-- C7 (confirmed): the edit-history cursor stays in `[-1, len-1]` after
any sequence of operations from a fresh editor, and pushing while the
cursor is left of the end truncates the redo tail first — so after
push, undo, push, a `redo()` fails with the nothing-to-redo error. -/
theorem editHistory_invariant_and_redo :
    (∀ ops : List EditorManager.EditorOp,
      EditorManager.cursorInv (EditorManager.run ops)) ∧
    (∀ a b : EditorAction,
      (EditorManager.redo (EditorManager.run
        [.apply a true, .undo, .apply b true])).2 = .errNothingToRedo) := by
  constructor
  · have hfold : ∀ (ops : List EditorManager.EditorOp) (st : EditorState),
        EditorManager.cursorInv st →
        EditorManager.cursorInv (ops.foldl EditorManager.step st) := by
      intro ops
      induction ops with
      | nil => intro st h; exact h
      | cons op ops ih =>
        intro st h
        rw [List.foldl_cons]
        exact ih _ (editor_step_preserves_inv st op h)
    intro ops
    exact hfold ops EditorManager.initializeEditor
      ⟨by norm_num [EditorManager.initializeEditor],
       by norm_num [EditorManager.initializeEditor]⟩
  · intro a b
    rfl

namespace ImageProcessor

/-- Peeling the last iteration off a `List.range` fold. -/
theorem foldl_range_succ {α : Type} (f : α → ℕ → α) (a : α) (n : ℕ) :
    (List.range (n + 1)).foldl f a = f ((List.range n).foldl f a) n := by
  rw [List.range_succ, List.foldl_append, List.foldl_cons, List.foldl_nil]

/-- Pointwise value of one RGB write. -/
theorem writeRGB_apply (d : PixelMap) (px py r g b x y : ℕ) :
    writeRGB d px py r g b x y =
      if x = px ∧ y = py then { r := r, g := g, b := b, a := (d x y).a }
      else d x y := rfl

/-- Pointwise value of one filled row. -/
theorem fillRow_apply (d : PixelMap) (px py r g b : ℕ) :
    ∀ len x y, fillRow d px py r g b len x y =
      if px ≤ x ∧ x < px + len ∧ y = py then
        { r := r, g := g, b := b, a := (d x y).a }
      else d x y := by
  intro len
  induction len with
  | zero =>
    intro x y
    simp only [fillRow, List.range_zero, List.foldl_nil]
    rw [if_neg (by omega)]
  | succ n ih =>
    intro x y
    have hstep : fillRow d px py r g b (n + 1) =
        writeRGB (fillRow d px py r g b n) (px + n) py r g b := by
      simp only [fillRow, foldl_range_succ]
    rw [hstep, writeRGB_apply]
    by_cases hx : x = px + n ∧ y = py
    · rw [if_pos hx, if_pos (by omega), ih x y]
      split <;> rfl
    · rw [if_neg hx, ih x y]
      by_cases hc : px ≤ x ∧ x < px + n ∧ y = py
      · rw [if_pos hc, if_pos (by omega)]
      · rw [if_neg hc, if_neg (by omega)]

/-- Pointwise value of `m` filled rows. -/
theorem fillRows_apply (d : PixelMap) (px py r g b len : ℕ) :
    ∀ m x y, fillRows d px py r g b len m x y =
      if px ≤ x ∧ x < px + len ∧ py ≤ y ∧ y < py + m then
        { r := r, g := g, b := b, a := (d x y).a }
      else d x y := by
  intro m
  induction m with
  | zero =>
    intro x y
    simp only [fillRows, List.range_zero, List.foldl_nil]
    rw [if_neg (by omega)]
  | succ m ih =>
    intro x y
    have hstep : fillRows d px py r g b len (m + 1) =
        fillRow (fillRows d px py r g b len m) px (py + m) r g b len := by
      simp only [fillRows, foldl_range_succ]
    rw [hstep, fillRow_apply]
    by_cases h1 : px ≤ x ∧ x < px + len ∧ y = py + m
    · rw [if_pos h1, if_pos (by omega), ih x y]
      split <;> rfl
    · rw [if_neg h1, ih x y]
      by_cases h2 : px ≤ x ∧ x < px + len ∧ py ≤ y ∧ y < py + m
      · rw [if_pos h2, if_pos (by omega)]
      · rw [if_neg h2, if_neg (by omega)]

/-- Pointwise value of one flooded block: every pixel of the block clipped
to the region takes the RGB triple, alpha untouched. -/
theorem fillBlock_apply (d : PixelMap) (px py ps w h r g b x y : ℕ) :
    fillBlock d px py ps w h r g b x y =
      if px ≤ x ∧ x < min (px + ps) w ∧ py ≤ y ∧ y < min (py + ps) h then
        { r := r, g := g, b := b, a := (d x y).a }
      else d x y := by
  unfold fillBlock
  rw [fillRows_apply]
  by_cases h1 : px ≤ x ∧ x < px + (min (px + ps) w - px) ∧ py ≤ y ∧
      y < py + (min (py + ps) h - py)
  · rw [if_pos h1, if_pos (by omega)]
  · rw [if_neg h1, if_neg (by omega)]

end ImageProcessor

namespace ImageProcessor

/-- The `px` loop unrolled over the first `n` block starts
(`0, ps, ..., (n-1)*ps`). -/
def mosaicBlockRowAux (d : PixelMap) (py ps w h : ℕ) (n : ℕ) : PixelMap :=
  (List.range n).foldl
    (fun dAcc i =>
      fillBlock dAcc (i * ps) py ps w h
        (dAcc (i * ps) py).r (dAcc (i * ps) py).g (dAcc (i * ps) py).b) d

/-- Source `mosaicBlockRow` visits exactly the block starts below `w`. -/
theorem mosaicBlockRow_eq_aux (d : PixelMap) (py ps w h : ℕ) :
    mosaicBlockRow d py ps w h =
      mosaicBlockRowAux d py ps w h ((w + ps - 1) / ps) := by
  unfold mosaicBlockRow mosaicBlockRowAux blockStarts
  rw [List.foldl_map]

/-- The ceiling division in `blockStarts` covers the whole extent. -/
theorem ceil_mul_le (w ps : ℕ) (hps : 0 < ps) : w ≤ ((w + ps - 1) / ps) * ps := by
  have h := Nat.div_add_mod (w + ps - 1) ps
  have h2 := Nat.mod_lt (w + ps - 1) hps
  rw [Nat.mul_comm]
  omega

/-- Pointwise value of a row of processed blocks: inside the strip
`py ≤ y < min (py+ps) h` and left of the `n`-th block boundary, the RGB
comes from the top-left source pixel of the enclosing block (read before
any write touches it), and alpha is unchanged. -/
theorem mosaicBlockRowAux_apply (d : PixelMap) (py ps w h : ℕ) (hps : 0 < ps) :
    ∀ n x y, mosaicBlockRowAux d py ps w h n x y =
      if x < min (n * ps) w ∧ py ≤ y ∧ y < min (py + ps) h then
        { r := (d (ps * (x / ps)) py).r, g := (d (ps * (x / ps)) py).g,
          b := (d (ps * (x / ps)) py).b, a := (d x y).a }
      else d x y := by
  intro n
  induction n with
  | zero =>
    intro x y
    simp only [mosaicBlockRowAux, List.range_zero, List.foldl_nil]
    rw [if_neg (by omega)]
  | succ n ih =>
    intro x y
    have hstep : mosaicBlockRowAux d py ps w h (n + 1) =
        fillBlock (mosaicBlockRowAux d py ps w h n) (n * ps) py ps w h
          ((mosaicBlockRowAux d py ps w h n) (n * ps) py).r
          ((mosaicBlockRowAux d py ps w h n) (n * ps) py).g
          ((mosaicBlockRowAux d py ps w h n) (n * ps) py).b := by
      simp only [mosaicBlockRowAux, foldl_range_succ]
    have hread : (mosaicBlockRowAux d py ps w h n) (n * ps) py = d (n * ps) py := by
      rw [ih (n * ps) py, if_neg (by omega)]
    have ha : (mosaicBlockRowAux d py ps w h n x y).a = (d x y).a := by
      rw [ih x y]
      split <;> rfl
    rw [hstep, hread, fillBlock_apply, Nat.succ_mul]
    by_cases h1 : n * ps ≤ x ∧ x < min (n * ps + ps) w ∧ py ≤ y ∧
        y < min (py + ps) h
    · have hdiv : x / ps = n :=
        Nat.div_eq_of_lt_le h1.1 (by rw [Nat.succ_mul]; omega)
      have ht : ps * (x / ps) = n * ps := by
        rw [hdiv, Nat.mul_comm]
      have h1' : x < min (n * ps + ps) w ∧ py ≤ y ∧ y < min (py + ps) h :=
        ⟨h1.2.1, h1.2.2.1, h1.2.2.2⟩
      rw [if_pos h1, if_pos h1', ha, ht]
    · rw [if_neg h1, ih x y]
      by_cases h2 : x < min (n * ps) w ∧ py ≤ y ∧ y < min (py + ps) h
      · have hc : x < min (n * ps + ps) w ∧ py ≤ y ∧ y < min (py + ps) h :=
          ⟨by omega, h2.2.1, h2.2.2⟩
        rw [if_pos h2, if_pos hc]
      · have hc : ¬ (x < min (n * ps + ps) w ∧ py ≤ y ∧ y < min (py + ps) h) := by
          omega
        rw [if_neg h2, if_neg hc]

/-- Pointwise value of one full row of blocks. -/
theorem mosaicBlockRow_apply (d : PixelMap) (py ps w h : ℕ) (hps : 0 < ps)
    (x y : ℕ) :
    mosaicBlockRow d py ps w h x y =
      if x < w ∧ py ≤ y ∧ y < min (py + ps) h then
        { r := (d (ps * (x / ps)) py).r, g := (d (ps * (x / ps)) py).g,
          b := (d (ps * (x / ps)) py).b, a := (d x y).a }
      else d x y := by
  rw [mosaicBlockRow_eq_aux, mosaicBlockRowAux_apply d py ps w h hps,
    Nat.min_eq_right (ceil_mul_le w ps hps)]

end ImageProcessor

namespace ImageProcessor

/-- The `py` loop unrolled over the first `m` row-block starts. -/
def mosaicLoopAux (d : PixelMap) (w h ps : ℕ) (m : ℕ) : PixelMap :=
  (List.range m).foldl (fun dAcc i => mosaicBlockRow dAcc (i * ps) ps w h) d

/-- Source `mosaicLoop` visits exactly the row starts below `h`. -/
theorem mosaicLoop_eq_aux (d : PixelMap) (w h ps : ℕ) :
    mosaicLoop d w h ps = mosaicLoopAux d w h ps ((h + ps - 1) / ps) := by
  unfold mosaicLoop mosaicLoopAux blockStarts
  rw [List.foldl_map]

/-- Pointwise value of the mosaic loops over the first `m` block rows:
below row boundary `m*ps` every region pixel takes the RGB of the top-left
pixel of its enclosing `ps×ps` block, alpha unchanged. -/
theorem mosaicLoopAux_apply (d : PixelMap) (w h ps : ℕ) (hps : 0 < ps) :
    ∀ m x y, mosaicLoopAux d w h ps m x y =
      if x < w ∧ y < min (m * ps) h then
        { r := (d (ps * (x / ps)) (ps * (y / ps))).r,
          g := (d (ps * (x / ps)) (ps * (y / ps))).g,
          b := (d (ps * (x / ps)) (ps * (y / ps))).b, a := (d x y).a }
      else d x y := by
  intro m
  induction m with
  | zero =>
    intro x y
    simp only [mosaicLoopAux, List.range_zero, List.foldl_nil]
    rw [if_neg (by omega)]
  | succ m ih =>
    intro x y
    have hstep : mosaicLoopAux d w h ps (m + 1) =
        mosaicBlockRow (mosaicLoopAux d w h ps m) (m * ps) ps w h := by
      simp only [mosaicLoopAux, foldl_range_succ]
    have hread : ∀ x', (mosaicLoopAux d w h ps m) x' (m * ps) = d x' (m * ps) := by
      intro x'
      rw [ih x' (m * ps), if_neg (by omega)]
    have ha : (mosaicLoopAux d w h ps m x y).a = (d x y).a := by
      rw [ih x y]
      split <;> rfl
    rw [hstep, mosaicBlockRow_apply _ _ _ _ _ hps, Nat.succ_mul, hread, ha]
    by_cases h1 : x < w ∧ m * ps ≤ y ∧ y < min (m * ps + ps) h
    · have hdiv : y / ps = m :=
        Nat.div_eq_of_lt_le h1.2.1 (by rw [Nat.succ_mul]; omega)
      have ht : ps * (y / ps) = m * ps := by
        rw [hdiv, Nat.mul_comm]
      have h1' : x < w ∧ y < min (m * ps + ps) h := ⟨h1.1, h1.2.2⟩
      rw [if_pos h1, if_pos h1', ht]
    · rw [if_neg h1, ih x y]
      by_cases h2 : x < w ∧ y < min (m * ps) h
      · have hc : x < w ∧ y < min (m * ps + ps) h := ⟨h2.1, by omega⟩
        rw [if_pos h2, if_pos hc]
      · have hc : ¬ (x < w ∧ y < min (m * ps + ps) h) := by omega
        rw [if_neg h2, if_neg hc]

/-- Pointwise value of the whole mosaic pass: inside the region every
pixel takes the RGB of the top-left pixel of its `ps×ps` block, alpha
unchanged; outside the region nothing changes. -/
theorem mosaicLoop_apply (d : PixelMap) (w h ps : ℕ) (hps : 0 < ps) (x y : ℕ) :
    mosaicLoop d w h ps x y =
      if x < w ∧ y < h then
        { r := (d (ps * (x / ps)) (ps * (y / ps))).r,
          g := (d (ps * (x / ps)) (ps * (y / ps))).g,
          b := (d (ps * (x / ps)) (ps * (y / ps))).b, a := (d x y).a }
      else d x y := by
  rw [mosaicLoop_eq_aux, mosaicLoopAux_apply d w h ps hps,
    Nat.min_eq_right (ceil_mul_le h ps hps)]

end ImageProcessor

/-- C9 (confirmed): applying the mosaic operation twice with the same
bounds and intensity equals applying it once — after the first pass every
block is uniformly its top-left source pixel's RGB with alpha unchanged,
so the second pass rewrites every pixel with the value it already has. -/
theorem applyMosaic_idempotent (d : PixelMap) (width height intensity x y : ℕ) :
    ImageProcessor.applyMosaicAction
      (ImageProcessor.applyMosaicAction d width height intensity)
      width height intensity x y =
    ImageProcessor.applyMosaicAction d width height intensity x y := by
  have hps : 0 < max 5 intensity := by omega
  unfold ImageProcessor.applyMosaicAction
  set ps := max 5 intensity with hpsdef
  by_cases hxy : x < width ∧ y < height
  · rw [ImageProcessor.mosaicLoop_apply _ width height ps hps x y, if_pos hxy]
    have hax : ps * (x / ps) ≤ x := by
      rw [Nat.mul_comm]
      exact Nat.div_mul_le_self x ps
    have hay : ps * (y / ps) ≤ y := by
      rw [Nat.mul_comm]
      exact Nat.div_mul_le_self y ps
    have haxw : ps * (x / ps) < width := lt_of_le_of_lt hax hxy.1
    have hayh : ps * (y / ps) < height := lt_of_le_of_lt hay hxy.2
    rw [ImageProcessor.mosaicLoop_apply d width height ps hps
      (ps * (x / ps)) (ps * (y / ps)), if_pos ⟨haxw, hayh⟩]
    rw [ImageProcessor.mosaicLoop_apply d width height ps hps x y, if_pos hxy]
    have hxx : ps * (ps * (x / ps) / ps) = ps * (x / ps) := by
      rw [Nat.mul_div_cancel_left _ hps]
    have hyy : ps * (ps * (y / ps) / ps) = ps * (y / ps) := by
      rw [Nat.mul_div_cancel_left _ hps]
    rw [hxx, hyy]
  · rw [ImageProcessor.mosaicLoop_apply _ width height ps hps x y, if_neg hxy]
